import Mathlib

/-!
Verification of the query-cache engine specification for the
learn-react-tenstack-query repository.

The repository's own sources (under `src/`) contain the demo fetch functions
(`api.jsx`), the paginated list page (`FetchRQ.jsx`) and the infinite-scroll
page (`InfiniteScroll.jsx`).  The query-cache engine itself (entry store,
fetch coordinator, retry policy, key codec, infinite page manager) is the
library the tutorial exercises; its code is not part of the repository
sources, so those components are modelled from the specification, each
marked `Modelled from the spec:` in its doc comment.  Everything taken from
the repository sources is marked with the source file it embeds.

JavaScript conventions used throughout the embedding: `undefined` is
`Option.none`; a promise that resolves with `v` is `Except.ok v` and a
promise that rejects with error `e` is `Except.error e`; an `async` function
body that may `throw`/`await` a failing request receives that underlying
outcome as an explicit `Except` argument.
-/

/-! ## Demo data types (shapes of the JSON payloads used by the pages) -/

/-- Shape of a post object from the demo REST endpoint (`id`, `title`, `body`),
as consumed by `FetchRQ.jsx` and `FetchIndv.jsx`. -/
structure Post where
  id : Nat
  title : String
  body : String
deriving DecidableEq, Repr

/-- Shape of a user object from the GitHub users endpoint (`id`, `login`,
`avatar_url`), as consumed by `InfiniteScroll.jsx`. -/
structure User where
  id : Nat
  login : String
  avatar_url : String
deriving DecidableEq, Repr

/-- An axios response: an HTTP status code and a parsed body. -/
structure AxiosResponse (α : Type) where
  status : Nat
  data : α
deriving DecidableEq, Repr

/-- Outcome of the underlying HTTP request performed by the axios client:
either a response, or a thrown error (network/transport failure), modelled by
the error message. -/
abbrev ReqOutcome (α : Type) := Except String (AxiosResponse α)

/-! ## Demo fetch functions, embedded from `src/src/api/api.jsx` -/

/-- Embeds `fetchPosts` (api.jsx lines 9-16): `try` the GET request; on a
response, return `res.data` when `res.status === 200` and `[]` otherwise; the
`catch` block logs the error and falls off the end of the function, so the
promise resolves with `undefined` (`none`).  The returned `Except` is the
promise's fate: this function never produces `Except.error`. -/
def fetchPosts (req : ReqOutcome (List Post)) : Except String (Option (List Post)) :=
  match req with
  | .ok res => .ok (some (if res.status = 200 then res.data else []))
  | .error _ => .ok none

/-- Embeds `fetchInvPost` (api.jsx lines 21-28).  The JavaScript returns the
post object on status 200 and the array literal `[]` otherwise; the untyped
union is modelled as `Post ⊕ List Post`.  The `catch` block logs and resolves
with `undefined` (`none`). -/
def fetchInvPost (req : ReqOutcome Post) : Except String (Option (Post ⊕ List Post)) :=
  match req with
  | .ok res => .ok (some (if res.status = 200 then Sum.inl res.data else Sum.inr []))
  | .error _ => .ok none

/-- Embeds `fetchUsers` (api.jsx lines 49-58), the infinite-scroll fetch
function: returns `res.data` with no status check; the `catch` block logs the
error and resolves with `undefined` (`none`).  It never rejects. -/
def fetchUsers (req : ReqOutcome (List User)) : Except String (Option (List User)) :=
  match req with
  | .ok res => .ok (some res.data)
  | .error _ => .ok none

/-! ## Entry Store (modelled from the spec, sections 3 and 4.3) -/

/-- Modelled from the spec: the `status` field of a cache entry
(`pending | success | error`). -/
inductive QStatus
  | pending
  | success
  | error
deriving DecidableEq, Repr

/-- Modelled from the spec: the `fetchStatus` field of a cache entry
(`idle | fetching | paused`). -/
inductive FetchStatus
  | idle
  | fetching
  | paused
deriving DecidableEq, Repr

/-- Modelled from the spec: a cache entry of the Entry Store (spec section 3),
with data of type `α` and errors of type `ε`.  `data = none` means no
successfully fetched value is present; timestamps and durations are naturals. -/
structure CacheEntry (α ε : Type) where
  data : Option α
  error : Option ε
  status : QStatus
  fetchStatus : FetchStatus
  dataUpdatedAt : Nat
  errorUpdatedAt : Nat
  staleTime : Nat
  retryCount : Nat
deriving DecidableEq, Repr

/-- Modelled from the spec: the entry created by `ensure` for a key not yet in
the store: `status = pending`, `fetchStatus = idle`, no data and no error. -/
def pendingEntry (staleTime : Nat) : CacheEntry α ε :=
  { data := none
    error := none
    status := .pending
    fetchStatus := .idle
    dataUpdatedAt := 0
    errorUpdatedAt := 0
    staleTime := staleTime
    retryCount := 0 }

/-- Modelled from the spec: `setData(key, value)` — records success: sets
`data`, clears `error`, `status = success`, updates `dataUpdatedAt = now`,
resets `retryCount = 0` (spec section 4.3). -/
def setData (e : CacheEntry α ε) (v : α) (now : Nat) : CacheEntry α ε :=
  { e with
    data := some v
    error := none
    status := .success
    dataUpdatedAt := now
    retryCount := 0 }

/-- Modelled from the spec: `setError(key, err)` — records failure: sets
`error`, `status = error` only if no prior `data` exists (otherwise `status`
remains as it was — `success` for an entry holding data — with `data`
retained), updates `errorUpdatedAt` (spec section 4.3). -/
def setError (e : CacheEntry α ε) (err : ε) (now : Nat) : CacheEntry α ε :=
  { e with
    error := some err
    status := if e.data.isNone then .error else e.status
    errorUpdatedAt := now }

/-- Modelled from the spec: staleness classification — an entry with
`status = success` is stale iff `now - dataUpdatedAt >= staleTime`
(spec section 3, invariants). -/
def isStale (e : CacheEntry α ε) (now : Nat) : Bool :=
  e.staleTime ≤ now - e.dataUpdatedAt

/-- Modelled from the spec: a read of a `success` entry triggers a background
refetch exactly when the entry is classified stale (spec sections 4.3 and 8). -/
def readTriggersRefetch (e : CacheEntry α ε) (now : Nat) : Bool :=
  isStale e now

/-- Modelled from the spec: how a settled fetch outcome is written back into
the Entry Store — a resolution goes through `setData`, a rejection through
`setError` (spec sections 4.4 and 6: the engine treats rejection as the
failure input). -/
def applyFetchOutcome (e : CacheEntry α ε) (outcome : Except ε α) (now : Nat) :
    CacheEntry α ε :=
  match outcome with
  | .ok v => setData e v now
  | .error err => setError e err now

/-! ## Retry Policy and fetch loop (modelled from the spec, sections 4.2, 4.4) -/

/-- Modelled from the spec: the default `shouldRetry(attemptIndex, error)`
predicate — retry while the attempt index is below the configured maximum
attempt count, unless the error is classified non-retriable (spec
section 4.2).  `retriable` is the error classification. -/
def shouldRetry (maxRetries : Nat) (retriable : Bool) (attemptIndex : Nat) : Bool :=
  retriable && attemptIndex < maxRetries

/-- Modelled from the spec: the default retry delay — exponential backoff with
a cap, `delay = min(baseDelay * 2^attemptIndex, maxDelay)` (spec section 4.2). -/
def delayFor (baseDelay maxDelay attemptIndex : Nat) : Nat :=
  min (baseDelay * 2 ^ attemptIndex) maxDelay

/-- Modelled from the spec: the Fetch Coordinator's attempt chain for one
request (spec section 4.4).  `fetchFn n` is the outcome of the `n`-th call of
the injected fetch function, `retriable` classifies errors, `retriesLeft` is
the number of retries still allowed.  Returns the total number of calls made
together with the final outcome: on failure with retries left and a retriable
error, one retry runs (incrementing the attempt index); otherwise the failure
is final. -/
def fetchAttempts (retriable : ε → Bool) (fetchFn : Nat → Except ε α) :
    Nat → Nat → Nat × Except ε α
  | retriesLeft, attempt =>
    match fetchFn attempt, retriesLeft with
    | .ok v, _ => (1, .ok v)
    | .error e, 0 => (1, .error e)
    | .error e, left + 1 =>
      if retriable e then
        let r := fetchAttempts retriable fetchFn left (attempt + 1)
        (r.1 + 1, r.2)
      else
        (1, .error e)

/-- Modelled from the spec: one full query execution against an entry — run
the attempt chain starting with `maxRetries` retries available, then write
the settled outcome into the entry (`setData` on success, `setError` once
retries are exhausted).  Returns the number of fetch-function calls together
with the updated entry. -/
def runQuery (retriable : ε → Bool) (maxRetries : Nat) (fetchFn : Nat → Except ε α)
    (e : CacheEntry α ε) (now : Nat) : Nat × CacheEntry α ε :=
  match fetchAttempts retriable fetchFn maxRetries 0 with
  | (n, outcome) => (n, applyFetchOutcome e outcome now)

/-- Modelled from the spec: a newly user-initiated fetch resets `retryCount`
to zero and marks the entry as fetching (spec section 3: `retryCount` is the
consecutive failure count for the current attempt chain, reset to zero on
success or on a newly user-initiated fetch). -/
def startUserFetch (e : CacheEntry α ε) : CacheEntry α ε :=
  { e with retryCount := 0, fetchStatus := .fetching }

/-! ## Infinite Page Manager (modelled from the spec, section 4.6; the
`getNextPageParam` callback is embedded from `src/src/pages/InfiniteScroll.jsx`) -/

/-- Modelled from the spec: one loaded page of an infinite entry — the cursor
`param` it was fetched with and its payload (spec section 4.6: `pages` is an
ordered sequence of `{param, data}`). -/
structure PageSlot (α : Type) where
  param : Nat
  data : List α
deriving DecidableEq, Repr

/-- Modelled from the spec: an infinite-mode entry holds the ordered sequence
of loaded pages. -/
structure InfiniteEntry (α : Type) where
  pages : List (PageSlot α)
deriving DecidableEq, Repr

/-- Embeds `getNextPageParam` from `InfiniteScroll.jsx` lines 10-13: the next
page param is `allPages.length + 1` while the last page holds 10 items, and
`undefined` (`none`) otherwise. -/
def getNextPageParam (lastPage : List α) (allPages : List (List α)) : Option Nat :=
  if lastPage.length = 10 then some (allPages.length + 1) else none

/-- Modelled from the spec: the forward cursor of an infinite entry, derived
from the current pages.  With no page loaded yet, the initial fetch uses the
fetch function's default cursor (`pageParam = 1` in `fetchUsers`); afterwards
the user-supplied `getNext(lastPage, allPages)` decides. -/
def nextParam (getNext : List α → List (List α) → Option Nat)
    (pages : List (PageSlot α)) : Option Nat :=
  match pages.getLast? with
  | none => some 1
  | some last => getNext last.data (pages.map PageSlot.data)

/-- Modelled from the spec: `hasNextPage` is derived, never stored — it is
recomputed from the pages (their last element and the param-deriving
function) each time it is read (spec section 4.6). -/
def hasNextPage (getNext : List α → List (List α) → Option Nat)
    (pages : List (PageSlot α)) : Bool :=
  (nextParam getNext pages).isSome

/-- Modelled from the spec: `fetchNextPage(key)` — compute the next param via
the user-supplied function; if `undefined` the call is a no-op
(`hasNextPage = false`); otherwise fetch that page and append it (spec
section 4.6).  `fetchFn p` is the payload the injected fetch function
resolves with for cursor `p`; this models a successful fetch. -/
def fetchNextPage (getNext : List α → List (List α) → Option Nat)
    (fetchFn : Nat → List α) (e : InfiniteEntry α) : InfiniteEntry α :=
  match nextParam getNext e.pages with
  | none => e
  | some p => { e with pages := e.pages ++ [⟨p, fetchFn p⟩] }

/-! ## FetchRQ pagination, embedded from `src/src/pages/FetchRQ.jsx` -/

/-- User actions on the FetchRQ pagination controls: the Prev and Next
buttons (`FetchRQ.jsx` lines 41-48). -/
inductive PageAction
  | prev
  | next
deriving DecidableEq, Repr

/-- Embeds the FetchRQ page-number state transitions: `pageNumber` starts at 0
(`useState(0)`, line 7); the Prev button is disabled exactly when
`pageNumber === 0` (line 42), so a `prev` action only fires otherwise and
subtracts 3 (line 43); the Next button adds 3 (line 48).  The state is an
integer, as in JavaScript. -/
def pageStep (p : Int) : PageAction → Int
  | .prev => if p = 0 then p else p - 3
  | .next => p + 3

/-- Embeds the page state reached after a sequence of button presses, from
the initial `pageNumber = 0`. -/
def pageAfter (actions : List PageAction) : Int :=
  actions.foldl pageStep 0

/-! ## Fetch Coordinator deduplication (modelled from the spec, section 4.4) -/

/-- Modelled from the spec: one in-flight fetch operation of the Fetch
Coordinator — the key it serves, a unique operation id, and the callers that
have joined it and will all receive its eventual result. -/
structure InFlightOp (κ : Type) where
  key : κ
  opId : Nat
  waiters : List Nat
deriving DecidableEq, Repr

/-- Modelled from the spec: the Fetch Coordinator's state — the in-flight
operations, a counter supplying fresh operation ids, and the record of which
caller received the result of which operation on completion. -/
structure CoordState (κ : Type) where
  inFlight : List (InFlightOp κ)
  nextOp : Nat
  delivered : List (Nat × Nat)
deriving Repr

/-- Modelled from the spec: the coordinator starts with no in-flight fetch
and nothing delivered. -/
def CoordState.init : CoordState κ :=
  { inFlight := [], nextOp := 0, delivered := [] }

/-- Events the Fetch Coordinator reacts to: a caller requests a key, or the
network call for a key settles. -/
inductive CoordEvent (κ : Type)
  | request (caller : Nat) (k : κ)
  | complete (k : κ)

/-- Modelled from the spec: the coordinator's reaction to one event (spec
section 4.4).  On `request`, if a fetch for the key is already in flight the
caller joins it (no new operation is started); otherwise a fresh operation
starts with the caller as its only waiter.  On `complete`, the operation for
the key leaves the in-flight set and its result is delivered to every joined
waiter. -/
def coordStep [DecidableEq κ] (s : CoordState κ) : CoordEvent κ → CoordState κ
  | .request caller k =>
    match s.inFlight.find? (fun f => decide (f.key = k)) with
    | some f =>
      { s with
        inFlight := s.inFlight.map fun g =>
          if g.opId = f.opId then { g with waiters := caller :: g.waiters } else g }
    | none =>
      { s with
        inFlight := ⟨k, s.nextOp, [caller]⟩ :: s.inFlight
        nextOp := s.nextOp + 1 }
  | .complete k =>
    match s.inFlight.find? (fun f => decide (f.key = k)) with
    | some f =>
      { s with
        inFlight := s.inFlight.filter fun g => decide (g.opId ≠ f.opId)
        delivered := f.waiters.map (fun c => (c, f.opId)) ++ s.delivered }
    | none => s

/-- Modelled from the spec: the coordinator state reached from the initial
state by a sequence of events. -/
def coordRun [DecidableEq κ] (events : List (CoordEvent κ)) : CoordState κ :=
  events.foldl coordStep CoordState.init

/-- Modelled from the spec: the number of in-flight fetches a state holds for
one key. -/
def inFlightCount [DecidableEq κ] (s : CoordState κ) (k : κ) : Nat :=
  s.inFlight.countP (fun f => decide (f.key = k))

/-! ## Supersession (modelled from the spec, sections 4.4 and 5) -/

/-- Modelled from the spec: the per-key supersession state of the Fetch
Coordinator — `current` is the id of the most recently initiated
non-discarded fetch for the key (if any), `discarded` lists the operations
marked "to be discarded", `data` records which operation's result the entry
currently reflects, and `nextId` supplies fresh fetch ids in initiation
order. -/
structure SupState (α : Type) where
  current : Option Nat
  discarded : List Nat
  data : Option (Nat × α)
  nextId : Nat
deriving Repr

/-- Events of the supersession model: a new fetch for the key is initiated, an
in-flight fetch is marked discarded (for example, its last observer
unsubscribed and the entry went away), or a fetch resolves with a value. -/
inductive SupEvent (α : Type)
  | start
  | discard (id : Nat)
  | resolve (id : Nat) (v : α)

/-- Modelled from the spec: one step of the supersession discipline (spec
section 4.4, cancellation).  Starting a fetch makes it the current one;
discarding an operation removes it from contention; a resolving fetch writes
its result to the entry only when it is still the most recently initiated
non-discarded fetch — results of discarded or superseded fetches are
ignored. -/
def supStep (s : SupState α) : SupEvent α → SupState α
  | .start => { s with current := some s.nextId, nextId := s.nextId + 1 }
  | .discard i =>
    { s with
      discarded := i :: s.discarded
      current := if s.current = some i then none else s.current }
  | .resolve i v =>
    if s.current = some i ∧ i ∉ s.discarded then
      { s with data := some (i, v) }
    else
      s

/-! ## Key Codec (modelled from the spec, sections 4.1 and 9) -/

/-- Modelled from the spec: a query identifier segment — a tagged value that
is a string, a number, an ordered sequence, or an associative record of named
sub-identifiers (spec section 9: tagged-value type for key segments,
`string | number | ordered sequence | unordered record`). -/
inductive KeySeg
  | str (s : String)
  | num (n : Int)
  | seq (elems : List KeySeg)
  | record (fields : List (String × KeySeg))

/-- Ordering used to canonicalize record fields: by field name. -/
def fieldLe (a b : String × KeySeg) : Bool :=
  decide (a.1 ≤ b.1)

/-- Sorts the fields of a record by name, making the canonical form
independent of insertion order. -/
def sortFields (fs : List (String × KeySeg)) : List (String × KeySeg) :=
  fs.mergeSort fieldLe

mutual

/-- Modelled from the spec: `canonicalize(identifier) -> CanonicalKey`, a pure
deterministic function (spec section 4.1).  Strings and numbers are already
canonical; sequences canonicalize elementwise keeping their order; record
fields are canonicalized and then sorted by name, so insertion order cannot
influence the result. -/
def canonicalize : KeySeg → KeySeg
  | .str s => .str s
  | .num n => .num n
  | .seq xs => .seq (canonList xs)
  | .record fs => .record (sortFields (canonFields fs))

/-- Canonicalizes every element of a sequence, preserving order. -/
def canonList : List KeySeg → List KeySeg
  | [] => []
  | x :: xs => canonicalize x :: canonList xs

/-- Canonicalizes the value of every record field, preserving names and
order (ordering is handled separately by `sortFields`). -/
def canonFields : List (String × KeySeg) → List (String × KeySeg)
  | [] => []
  | f :: fs => (f.1, canonicalize f.2) :: canonFields fs

end

/-- Structural equality of query identifiers (spec sections 3 and 4.1):
the least equivalence that is a congruence for sequence elements and record
field values, and additionally ignores the insertion order of record fields —
swapping two fields of a record whose field names are distinct (an
associative record, as a map, never repeats a name) yields a structurally
equal identifier.  Sequence order is significant: no rule reorders `seq`
elements. -/
inductive StructEq : KeySeg → KeySeg → Prop
  | refl (k : KeySeg) : StructEq k k
  | symm : StructEq a b → StructEq b a
  | trans : StructEq a b → StructEq b c → StructEq a c
  | seqCong (pre post : List KeySeg) (a b : KeySeg) :
      StructEq a b →
      StructEq (.seq (pre ++ a :: post)) (.seq (pre ++ b :: post))
  | fieldCong (pre post : List (String × KeySeg)) (n : String) (a b : KeySeg) :
      StructEq a b →
      StructEq (.record (pre ++ (n, a) :: post)) (.record (pre ++ (n, b) :: post))
  | fieldSwap (pre mid post : List (String × KeySeg)) (x y : String × KeySeg) :
      ((pre ++ x :: mid ++ y :: post).map Prod.fst).Nodup →
      StructEq (.record (pre ++ x :: mid ++ y :: post))
               (.record (pre ++ y :: mid ++ x :: post))

/-! ## Theorems -/

/-- Claim C9: the demo fetch functions `fetchPosts` and `fetchInvPost` never
reject — for every outcome of the underlying request they resolve: with the
response body when the HTTP status is 200, with the empty list when the
status is anything else, and with `undefined` when the request throws (the
error is caught and logged), so a network failure through these fetchers
never produces a rejected promise at the query layer. -/
theorem fetchers_never_reject :
    (∀ req : ReqOutcome (List Post), (fetchPosts req).isOk = true) ∧
    (∀ req : ReqOutcome Post, (fetchInvPost req).isOk = true) ∧
    (∀ res : AxiosResponse (List Post), res.status = 200 →
      fetchPosts (.ok res) = .ok (some res.data)) ∧
    (∀ res : AxiosResponse (List Post), res.status ≠ 200 →
      fetchPosts (.ok res) = .ok (some [])) ∧
    (∀ err : String, fetchPosts (.error err) = .ok none) ∧
    (∀ res : AxiosResponse Post, res.status = 200 →
      fetchInvPost (.ok res) = .ok (some (Sum.inl res.data))) ∧
    (∀ res : AxiosResponse Post, res.status ≠ 200 →
      fetchInvPost (.ok res) = .ok (some (Sum.inr []))) ∧
    (∀ err : String, fetchInvPost (.error err) = .ok none) := by
  refine ⟨?_, ?_, ?_, ?_, ?_, ?_, ?_, ?_⟩
  · intro req; cases req <;> rfl
  · intro req; cases req <;> rfl
  · intro res h; simp [fetchPosts, h]
  · intro res h; simp [fetchPosts, h]
  · intro err; rfl
  · intro res h; simp [fetchInvPost, h]
  · intro res h; simp [fetchInvPost, h]
  · intro err; rfl

/-- Witness for claim C9 at concrete inputs: both status branches and the
throwing branch of each fetcher, with every hypothesis discharged. -/
theorem fetchers_never_reject_witness :
    fetchPosts (.ok ⟨200, [⟨1, "t", "b"⟩]⟩) = .ok (some [⟨1, "t", "b"⟩]) ∧
    fetchPosts (.ok ⟨500, [⟨1, "t", "b"⟩]⟩) = .ok (some []) ∧
    fetchPosts (.error "boom") = .ok none ∧
    fetchInvPost (.ok ⟨200, ⟨1, "t", "b"⟩⟩) = .ok (some (Sum.inl ⟨1, "t", "b"⟩)) ∧
    fetchInvPost (.ok ⟨404, ⟨1, "t", "b"⟩⟩) = .ok (some (Sum.inr [])) ∧
    fetchInvPost (.error "boom") = .ok none :=
  ⟨fetchers_never_reject.2.2.1 ⟨200, [⟨1, "t", "b"⟩]⟩ rfl,
   fetchers_never_reject.2.2.2.1 ⟨500, [⟨1, "t", "b"⟩]⟩ (by decide),
   fetchers_never_reject.2.2.2.2.1 "boom",
   fetchers_never_reject.2.2.2.2.2.1 ⟨200, ⟨1, "t", "b"⟩⟩ rfl,
   fetchers_never_reject.2.2.2.2.2.2.1 ⟨404, ⟨1, "t", "b"⟩⟩ (by decide),
   fetchers_never_reject.2.2.2.2.2.2.2 "boom"⟩

/-- Claim C2, refuted on the code: `fetchUsers` (the infinite-scroll fetch
function) silently drops every fetch failure — the `catch` block logs the
error and the promise resolves with `undefined` — so the failure never
reaches the cache entry's error channel: after the engine writes the settled
outcome back, the entry has `status = success` and no error recorded, even
though the underlying request threw. -/
theorem fetchUsers_drops_failure :
    (∀ err : String, fetchUsers (.error err) = .ok none) ∧
    (applyFetchOutcome (pendingEntry 0) (fetchUsers (.error "network down")) 1).status
      = QStatus.success ∧
    (applyFetchOutcome (pendingEntry 0) (fetchUsers (.error "network down")) 1).error
      = none :=
  ⟨fun _ => rfl, rfl, rfl⟩

/-- Claim C4: stale-while-revalidate-failed semantics of `setError` — for any
entry (well-formed in that held data implies `status = success`), recording a
failure sets the error and `errorUpdatedAt`, leaves `data`, `dataUpdatedAt`,
`staleTime`, `retryCount` and `fetchStatus` untouched, and yields
`status = error` exactly when no prior data exists; with prior data the
status stays `success`, so an error is user-visible only when no usable
prior data exists. -/
theorem setError_stale_while_revalidate (e : CacheEntry α ε) (err : ε) (now : Nat)
    (hwf : ∀ d, e.data = some d → e.status = .success) :
    (setError e err now).error = some err ∧
    (setError e err now).errorUpdatedAt = now ∧
    (setError e err now).data = e.data ∧
    (setError e err now).dataUpdatedAt = e.dataUpdatedAt ∧
    (setError e err now).staleTime = e.staleTime ∧
    (setError e err now).retryCount = e.retryCount ∧
    (setError e err now).fetchStatus = e.fetchStatus ∧
    ((setError e err now).status = .error ↔ e.data = none) ∧
    (∀ d, e.data = some d → (setError e err now).status = .success) := by
  refine ⟨rfl, rfl, rfl, rfl, rfl, rfl, rfl, ?_, ?_⟩
  · cases hd : e.data with
    | none => simp [setError, hd]
    | some d => simp [setError, hd, hwf d hd]
  · intro d hd
    simp [setError, hd, hwf d hd]

/-- Witness for claim C4: an entry holding data (written by `setData`) keeps
`status = success` and its data across `setError`, and a fresh entry without
data transitions to `status = error`. -/
theorem setError_stale_while_revalidate_witness :
    (setError (setData (pendingEntry 0) (7 : Nat) 1) "boom" 2).status = QStatus.success ∧
    (setError (setData (pendingEntry 0) (7 : Nat) 1) "boom" 2).data = some 7 ∧
    ((setError (pendingEntry 0 : CacheEntry Nat String) "boom" 2).status = QStatus.error ↔
      (pendingEntry 0 : CacheEntry Nat String).data = none) :=
  ⟨(setError_stale_while_revalidate (setData (pendingEntry 0) 7 1) "boom" 2
      (fun _ _ => rfl)).2.2.2.2.2.2.2.2 7 rfl,
   ((setError_stale_while_revalidate (setData (pendingEntry 0) 7 1) "boom" 2
      (fun _ _ => rfl)).2.2.1).trans rfl,
   (setError_stale_while_revalidate (pendingEntry 0) "boom" 2
      (fun d hd => by simp [pendingEntry] at hd)).2.2.2.2.2.2.2.1⟩

/-- Claim C7: the staleness boundary — a `success` entry is classified stale
iff `now - dataUpdatedAt >= staleTime`, and with `staleTime = T` a read at
time `dataUpdatedAt + T - eps` triggers no background refetch while a read at
`dataUpdatedAt + T + eps` triggers one (for `0 < eps <= T`). -/
theorem staleness_boundary (e : CacheEntry α ε) (now T eps u : Nat)
    (hs : e.status = .success) (hT : e.staleTime = T) (hu : e.dataUpdatedAt = u)
    (heps : 0 < eps) (hepsT : eps ≤ T) :
    (isStale e now = true ↔ T ≤ now - u) ∧
    readTriggersRefetch e (u + T - eps) = false ∧
    readTriggersRefetch e (u + T + eps) = true := by
  refine ⟨?_, ?_, ?_⟩
  · simp [isStale, hT, hu]
  · simp only [readTriggersRefetch, isStale, hT, hu]
    simp only [decide_eq_false_iff_not, not_le]
    omega
  · simp only [readTriggersRefetch, isStale, hT, hu]
    simp only [decide_eq_true_eq]
    omega

/-- Witness for claim C7: an entry fetched at time 100 with `staleTime = 10`
is not refetched when read at time 109 and is refetched when read at
time 111. -/
theorem staleness_boundary_witness :
    readTriggersRefetch (setData (pendingEntry (α := Nat) (ε := String) 10) 7 100) 109
      = false ∧
    readTriggersRefetch (setData (pendingEntry (α := Nat) (ε := String) 10) 7 100) 111
      = true :=
  ⟨(staleness_boundary (setData (pendingEntry 10) 7 100) 109 10 1 100 rfl rfl rfl
      (by decide) (by decide)).2.1,
   (staleness_boundary (setData (pendingEntry 10) 7 100) 111 10 1 100 rfl rfl rfl
      (by decide) (by decide)).2.2⟩

/-- One button press keeps the FetchRQ page number a non-negative multiple
of 3: the guarded Prev subtracts 3 only from a positive multiple, Next adds 3. -/
theorem pageStep_preserves_mul3 (p : Int) (a : PageAction)
    (h : ∃ k : Nat, p = 3 * k) : ∃ k : Nat, pageStep p a = 3 * k := by
  obtain ⟨k, hk⟩ := h
  cases a with
  | prev =>
    by_cases h0 : p = 0
    · exact ⟨0, by simp [pageStep, h0]⟩
    · refine ⟨k - 1, ?_⟩
      have hk1 : 1 ≤ k := by
        rcases Nat.eq_zero_or_pos k with h | h
        · exact absurd (by simp [hk, h]) h0
        · exact h
      simp only [pageStep, h0, if_false]
      push_cast [hk1]
      omega
  | next => exact ⟨k + 1, by simp only [pageStep]; omega⟩

/-- Every page state reachable by button presses from a multiple of 3 is a
multiple of 3. -/
theorem pageFold_preserves_mul3 (actions : List PageAction) :
    ∀ p : Int, (∃ k : Nat, p = 3 * k) →
      ∃ k : Nat, actions.foldl pageStep p = 3 * k := by
  induction actions with
  | nil => intro p hp; simpa using hp
  | cons a rest ih =>
    intro p hp
    simpa using ih (pageStep p a) (pageStep_preserves_mul3 p a hp)

/-- Claim C10: starting from 0, the FetchRQ `pageNumber` is always a
non-negative multiple of 3 after any sequence of Prev/Next presses (Prev
being disabled exactly at 0), so the displayed page number
`pageNumber / 3 + 1` is an exact integer at least 1. -/
theorem pageNumber_invariant (actions : List PageAction) :
    ∃ k : Nat, pageAfter actions = 3 * k ∧
      0 ≤ pageAfter actions ∧
      pageAfter actions / 3 + 1 = (k : Int) + 1 ∧
      1 ≤ pageAfter actions / 3 + 1 := by
  obtain ⟨k, hk⟩ := pageFold_preserves_mul3 actions 0 ⟨0, by simp⟩
  refine ⟨k, ?_, ?_, ?_, ?_⟩ <;> simp [pageAfter] at hk ⊢ <;> omega

/-- Claim C1: the infinite-paging scenario — with the source's
`getNextPageParam` (next param `allPages.length + 1` while the last page has
10 items, else `undefined`) and a fetch function always returning full pages
of 10, two `fetchNextPage` calls from an empty entry yield exactly 2 pages
and `hasNextPage = true`; in general `hasNextPage` is recomputed from the
current pages, equalling `true` iff the param function applied to the last
page yields a param — for a nonempty entry, iff the last fetched page has
exactly 10 items. -/
theorem infinite_paging (fetchFn : Nat → List α)
    (hfull : ∀ p, (fetchFn p).length = 10) :
    (fetchNextPage getNextPageParam fetchFn
        (fetchNextPage getNextPageParam fetchFn ⟨[]⟩)).pages.length = 2 ∧
    hasNextPage getNextPageParam
      (fetchNextPage getNextPageParam fetchFn
        (fetchNextPage getNextPageParam fetchFn ⟨[]⟩)).pages = true ∧
    (∀ (pages : List (PageSlot α)) (last : PageSlot α),
      pages.getLast? = some last →
      (hasNextPage getNextPageParam pages = true ↔ last.data.length = 10)) := by
  have h1 : fetchNextPage getNextPageParam fetchFn (⟨[]⟩ : InfiniteEntry α)
      = ⟨[⟨1, fetchFn 1⟩]⟩ := by
    simp [fetchNextPage, nextParam]
  have h2 : fetchNextPage getNextPageParam fetchFn (⟨[⟨1, fetchFn 1⟩]⟩ : InfiniteEntry α)
      = ⟨[⟨1, fetchFn 1⟩, ⟨2, fetchFn 2⟩]⟩ := by
    simp [fetchNextPage, nextParam, getNextPageParam, hfull]
  refine ⟨?_, ?_, ?_⟩
  · rw [h1, h2]
    rfl
  · rw [h1, h2]
    simp [hasNextPage, nextParam, getNextPageParam, hfull]
  · intro pages last hlast
    simp [hasNextPage, nextParam, hlast, getNextPageParam]

/-- Witness for claim C1: with the concrete fetch function returning the page
`[0, …, 9]` for every param, two `fetchNextPage` calls from empty give 2
pages and a `true` `hasNextPage`, and the derived `hasNextPage` of the
resulting entry matches its last page's fullness. -/
theorem infinite_paging_witness :
    (fetchNextPage getNextPageParam (fun _ => List.range 10)
        (fetchNextPage getNextPageParam (fun _ => List.range 10)
          (⟨[]⟩ : InfiniteEntry Nat))).pages.length = 2 ∧
    hasNextPage getNextPageParam
      (fetchNextPage getNextPageParam (fun _ => List.range 10)
        (fetchNextPage getNextPageParam (fun _ => List.range 10)
          (⟨[]⟩ : InfiniteEntry Nat))).pages = true :=
  ⟨(infinite_paging (fun _ => List.range 10) (fun _ => List.length_range 10)).1,
   (infinite_paging (fun _ => List.range 10) (fun _ => List.length_range 10)).2.1⟩

/-- Claim C5: retry exhaustion — with the default maximum of 3 retries and a
fetch function that fails with a retriable error on every call, the attempt
chain makes exactly 4 calls (the initial call plus 3 retries) and settles as
a failure, so a data-less entry ends with `status = error`; and `retryCount`
is reset to zero by a success (`setData`) and by a newly user-initiated
fetch. -/
theorem retry_exhaustion (retriable : ε → Bool) (fetchFn : Nat → Except ε α)
    (hfail : ∀ n, ∃ err, fetchFn n = .error err ∧ retriable err = true)
    (e : CacheEntry α ε) (he : e.data = none) (now : Nat) (v : α) :
    (fetchAttempts retriable fetchFn 3 0).1 = 4 ∧
    (∃ err, (fetchAttempts retriable fetchFn 3 0).2 = .error err) ∧
    (runQuery retriable 3 fetchFn e now).1 = 4 ∧
    (runQuery retriable 3 fetchFn e now).2.status = .error ∧
    (setData e v now).retryCount = 0 ∧
    (startUserFetch e).retryCount = 0 := by
  obtain ⟨e0, h0, r0⟩ := hfail 0
  obtain ⟨e1, h1, r1⟩ := hfail 1
  obtain ⟨e2, h2, r2⟩ := hfail 2
  obtain ⟨e3, h3, r3⟩ := hfail 3
  have hatt : fetchAttempts retriable fetchFn 3 0 = (4, .error e3) := by
    simp [fetchAttempts, h0, h1, h2, h3, r0, r1, r2, r3]
  refine ⟨by rw [hatt], ⟨e3, by rw [hatt]⟩, ?_, ?_, rfl, rfl⟩
  · simp [runQuery, hatt]
  · simp [runQuery, hatt, applyFetchOutcome, setError, he]

/-- Witness for claim C5: the always-failing fetch function makes 4 calls and
leaves a fresh entry in `status = error`. -/
theorem retry_exhaustion_witness :
    (fetchAttempts (fun _ => true) (fun _ => (.error "boom" : Except String Nat)) 3 0).1
      = 4 ∧
    (runQuery (fun _ => true) 3 (fun _ => (.error "boom" : Except String Nat))
      (pendingEntry 0) 1).2.status = .error :=
  ⟨(retry_exhaustion (fun _ => true) (fun _ => .error "boom")
      (fun _ => ⟨"boom", rfl, rfl⟩) (pendingEntry 0) rfl 1 7).1,
   (retry_exhaustion (fun _ => true) (fun _ => .error "boom")
      (fun _ => ⟨"boom", rfl, rfl⟩) (pendingEntry 0) rfl 1 7).2.2.2.1⟩

/-- Claim C6: supersession — in every state, resolving a fetch that is not
the most recently initiated non-discarded one (it was superseded or
discarded) never writes to the entry; and in the scenario where fetch A
starts, fetch B for the same key starts before A resolves, B resolves with
`v` and only then A resolves with `w`, A's result is never written and the
entry reflects B's result.  `hwf` says every discarded id was actually
issued, which holds in any state reachable from the initial one. -/
theorem supersession_wins (s0 : SupState α) (v w : α)
    (hwf : ∀ i ∈ s0.discarded, i < s0.nextId) :
    (∀ (s : SupState α) (i : Nat) (x : α),
      (s.current ≠ some i ∨ i ∈ s.discarded) →
      (supStep s (.resolve i x)).data = s.data) ∧
    (supStep (supStep (supStep (supStep s0 .start) .start)
        (.resolve (supStep s0 .start).nextId v))
        (.resolve s0.nextId w)).data
      = some ((supStep s0 .start).nextId, v) ∧
    (supStep (supStep (supStep s0 .start) .start)
        (.resolve (supStep s0 .start).nextId v)).data
      = some ((supStep s0 .start).nextId, v) := by
  have hignore : ∀ (s : SupState α) (i : Nat) (x : α),
      (s.current ≠ some i ∨ i ∈ s.discarded) →
      (supStep s (.resolve i x)).data = s.data := by
    intro s i x h
    simp only [supStep]
    rw [if_neg]
    rcases h with h | h
    · exact fun hc => h hc.1
    · exact fun hc => hc.2 h
  have hb : (supStep s0 .start).nextId = s0.nextId + 1 := rfl
  have hbnotd : s0.nextId + 1 ∉ s0.discarded := fun hmem => by
    have := hwf _ hmem
    omega
  have hwrite :
      (supStep (supStep (supStep s0 .start) .start)
          (.resolve (supStep s0 .start).nextId v)).data
        = some ((supStep s0 .start).nextId, v) := by
    simp [supStep, hb, hbnotd]
  refine ⟨hignore, ?_, hwrite⟩
  have hcur :
      (supStep (supStep (supStep s0 .start) .start)
          (.resolve (supStep s0 .start).nextId v)).current
        = some (s0.nextId + 1) := by
    simp [supStep, hb, hbnotd]
  rw [hignore _ _ _ (Or.inl (by rw [hcur]; simp)), hwrite]

/-- Witness for claim C6: from the initial supersession state, fetch 0 then
fetch 1 start, fetch 1 resolves with 10, and fetch 0's late resolution
with 20 is ignored — the entry reflects fetch 1's result. -/
theorem supersession_wins_witness :
    (supStep (supStep (supStep (supStep ⟨none, [], none, 0⟩ .start) .start)
        (.resolve (supStep (⟨none, [], none, 0⟩ : SupState Nat) .start).nextId 10))
        (.resolve (⟨none, [], none, 0⟩ : SupState Nat).nextId 20)).data
      = some ((supStep (⟨none, [], none, 0⟩ : SupState Nat) .start).nextId, 10) :=
  (supersession_wins (⟨none, [], none, 0⟩ : SupState Nat) 10 20
    (fun i hmem => absurd hmem (List.not_mem_nil i))).2.1

/-- The deduplication invariant of the Fetch Coordinator: distinct in-flight
operations always serve distinct keys. -/
def CoordInv (s : CoordState κ) : Prop :=
  s.inFlight.Pairwise (fun a b => a.key ≠ b.key)

/-- Joining a waiter onto an in-flight operation does not change its key. -/
theorem key_joinWaiter (f g : InFlightOp κ) (caller : Nat) :
    (if g.opId = f.opId then { g with waiters := caller :: g.waiters } else g).key
      = g.key := by
  split <;> rfl

/-- Every coordinator step preserves the deduplication invariant. -/
theorem coordStep_preserves [DecidableEq κ] (s : CoordState κ) (ev : CoordEvent κ)
    (h : CoordInv s) : CoordInv (coordStep s ev) := by
  cases ev with
  | request caller k =>
    simp only [coordStep]
    cases hf : s.inFlight.find? (fun f => decide (f.key = k)) with
    | some f =>
      simp only [CoordInv]
      rw [List.pairwise_map]
      exact h.imp fun hab => by
        rwa [key_joinWaiter, key_joinWaiter]
    | none =>
      simp only [CoordInv, List.pairwise_cons]
      refine ⟨fun b hb => ?_, h⟩
      have hbk := List.find?_eq_none.mp hf b hb
      simp only [decide_eq_true_eq] at hbk
      exact fun hkb => hbk hkb.symm
  | complete k =>
    simp only [coordStep]
    cases hf : s.inFlight.find? (fun f => decide (f.key = k)) with
    | some f => exact List.Pairwise.sublist (List.filter_sublist _) h
    | none => exact h

/-- The deduplication invariant holds in every reachable coordinator state. -/
theorem coordRun_inv [DecidableEq κ] (events : List (CoordEvent κ)) :
    CoordInv (coordRun events) := by
  suffices hstep : ∀ s : CoordState κ, CoordInv s →
      CoordInv (events.foldl coordStep s) from
    hstep CoordState.init (by simp [CoordInv, CoordState.init])
  induction events with
  | nil => exact fun s hs => hs
  | cons e rest ih => exact fun s hs => ih _ (coordStep_preserves s e hs)

/-- A list of in-flight operations with pairwise-distinct keys holds at most
one operation for any given key. -/
theorem countP_le_one_of_pairwise [DecidableEq κ] (l : List (InFlightOp κ)) (k : κ)
    (h : l.Pairwise (fun a b => a.key ≠ b.key)) :
    l.countP (fun f => decide (f.key = k)) ≤ 1 := by
  induction l with
  | nil => simp
  | cons a t ih =>
    rw [List.pairwise_cons] at h
    rw [List.countP_cons]
    by_cases ha : a.key = k
    · have hz : t.countP (fun f => decide (f.key = k)) = 0 := by
        rw [List.countP_eq_zero]
        intro b hb
        simp only [decide_eq_true_eq]
        intro hbk
        exact h.1 b hb (by rw [ha, hbk])
      simp [hz, ha]
    · simpa [ha] using ih h.2

/-- Completing the fetch for a key delivers the in-flight operation's result
to every waiter that joined it. -/
theorem complete_delivered [DecidableEq κ] (t : CoordState κ) (k : κ)
    (g : InFlightOp κ)
    (hg : t.inFlight.find? (fun x => decide (x.key = k)) = some g) :
    (coordStep t (.complete k)).delivered
      = g.waiters.map (fun w => (w, g.opId)) ++ t.delivered := by
  simp [coordStep, hg]

/-- A request for a key that is already in flight joins the existing
operation: the id counter does not move (no new fetch starts), the number of
in-flight operations for the key is unchanged, and when the existing
operation completes the joining caller receives its result. -/
theorem request_joins [DecidableEq κ] (s : CoordState κ) (k : κ) (c : Nat)
    (f : InFlightOp κ)
    (hf : s.inFlight.find? (fun g => decide (g.key = k)) = some f) :
    (coordStep s (.request c k)).nextOp = s.nextOp ∧
    inFlightCount (coordStep s (.request c k)) k = inFlightCount s k ∧
    (c, f.opId) ∈ (coordStep (coordStep s (.request c k)) (.complete k)).delivered := by
  have hs' : coordStep s (.request c k)
      = { s with inFlight := s.inFlight.map fun g =>
            if g.opId = f.opId then { g with waiters := c :: g.waiters } else g } := by
    simp [coordStep, hf]
  have hpe : ((fun g : InFlightOp κ => decide (g.key = k)) ∘ fun g =>
        if g.opId = f.opId then { g with waiters := c :: g.waiters } else g)
      = fun g : InFlightOp κ => decide (g.key = k) :=
    funext fun g => by simp only [Function.comp_apply, key_joinWaiter]
  refine ⟨by rw [hs'], ?_, ?_⟩
  · rw [hs']
    simp only [inFlightCount]
    rw [List.countP_map, hpe]
  · have hfind' : (coordStep s (.request c k)).inFlight.find?
        (fun g => decide (g.key = k)) = some { f with waiters := c :: f.waiters } := by
      rw [hs']
      simp only [List.find?_map, hpe, hf]
      simp
    rw [complete_delivered (coordStep s (.request c k)) k _ hfind']
    exact List.mem_append_left _ (List.mem_map_of_mem _ (List.mem_cons_self c _))

/-- Claim C3: deduplication — in every coordinator state reachable by any
sequence of requests and completions, at most one fetch is in flight for any
key, no matter how many concurrent subscribers requested it; and a request
arriving while a fetch for its key is in flight starts no new operation but
joins the existing one and receives its eventual result on completion. -/
theorem dedup_invariant (κ : Type) [DecidableEq κ] :
    (∀ (events : List (CoordEvent κ)) (k : κ),
      inFlightCount (coordRun events) k ≤ 1) ∧
    (∀ (events : List (CoordEvent κ)) (k : κ) (c : Nat) (f : InFlightOp κ),
      (coordRun events).inFlight.find? (fun g => decide (g.key = k)) = some f →
      (coordStep (coordRun events) (.request c k)).nextOp = (coordRun events).nextOp ∧
      inFlightCount (coordStep (coordRun events) (.request c k)) k
        = inFlightCount (coordRun events) k ∧
      (c, f.opId) ∈
        (coordStep (coordStep (coordRun events) (.request c k))
          (.complete k)).delivered) :=
  ⟨fun events k =>
    countP_le_one_of_pairwise (coordRun events).inFlight k (coordRun_inv events),
   fun events k c f hf => request_joins (coordRun events) k c f hf⟩

/-- Witness for claim C3: after caller 0 requests key 5, the invariant holds,
and a second request by caller 1 for key 5 joins operation 0 — caller 1 is
delivered operation 0's result on completion. -/
theorem dedup_invariant_witness :
    inFlightCount (coordRun [CoordEvent.request 0 (5 : Nat)]) 5 ≤ 1 ∧
    ((1 : Nat), (0 : Nat)) ∈
      (coordStep (coordStep (coordRun [CoordEvent.request 0 (5 : Nat)])
        (.request 1 5)) (.complete 5)).delivered :=
  ⟨(dedup_invariant Nat).1 [CoordEvent.request 0 5] 5,
   ((dedup_invariant Nat).2 [CoordEvent.request 0 5] 5 1 ⟨5, 0, [0]⟩ (by decide)).2.2⟩

/-- Canonicalization of a sequence distributes over append. -/
theorem canonList_append (l1 l2 : List KeySeg) :
    canonList (l1 ++ l2) = canonList l1 ++ canonList l2 := by
  induction l1 with
  | nil => rfl
  | cons x xs ih => simp [canonList, ih]

/-- Canonicalization of record fields distributes over append. -/
theorem canonFields_append (l1 l2 : List (String × KeySeg)) :
    canonFields (l1 ++ l2) = canonFields l1 ++ canonFields l2 := by
  induction l1 with
  | nil => rfl
  | cons f fs ih => simp [canonFields, ih]

/-- Canonicalizing record fields is a map over the field values. -/
theorem canonFields_eq_map (fs : List (String × KeySeg)) :
    canonFields fs = fs.map fun f => (f.1, canonicalize f.2) := by
  induction fs with
  | nil => rfl
  | cons f fs ih => simp [canonFields, ih]

/-- The field ordering is transitive. -/
theorem fieldLe_trans (a b c : String × KeySeg)
    (hab : fieldLe a b = true) (hbc : fieldLe b c = true) : fieldLe a c = true := by
  simp only [fieldLe, decide_eq_true_eq] at hab hbc ⊢
  exact le_trans hab hbc

/-- The field ordering is total. -/
theorem fieldLe_total (a b : String × KeySeg) :
    (fieldLe a b || fieldLe b a) = true := by
  simp only [fieldLe, Bool.or_eq_true, decide_eq_true_eq]
  exact le_total a.1 b.1

/-- Two permuted lists of fields, each sorted by field name, with no repeated
name, are equal. -/
theorem sorted_perm_nodup_eq : ∀ l1 l2 : List (String × KeySeg),
    l1.Perm l2 → l1.Pairwise (fun a b => fieldLe a b = true) →
    l2.Pairwise (fun a b => fieldLe a b = true) →
    (l1.map Prod.fst).Nodup → l1 = l2 := by
  intro l1
  induction l1 with
  | nil => exact fun l2 hp _ _ _ => (hp.symm.eq_nil).symm
  | cons a t1 ih =>
    intro l2 hp hs1 hs2 hnd
    cases l2 with
    | nil => exact absurd hp.eq_nil (by simp)
    | cons b t2 =>
      rw [List.pairwise_cons] at hs1 hs2
      by_cases hab : a = b
      · subst hab
        have ht : t1 = t2 := by
          apply ih t2 hp.cons_inv hs1.2 hs2.2
          simpa using (List.nodup_cons.mp (by simpa using hnd)).2
        rw [ht]
      · exfalso
        have hb1 : b ∈ t1 := by
          have := hp.mem_iff.mpr (List.mem_cons_self b t2)
          rcases List.mem_cons.mp this with h | h
          · exact absurd h.symm hab
          · exact h
        have ha2 : a ∈ t2 := by
          have := hp.mem_iff.mp (List.mem_cons_self a t1)
          rcases List.mem_cons.mp this with h | h
          · exact absurd h hab
          · exact h
        have h1 : a.1 ≤ b.1 := by
          have := hs1.1 b hb1
          simpa [fieldLe] using this
        have h2 : b.1 ≤ a.1 := by
          have := hs2.1 a ha2
          simpa [fieldLe] using this
        have hfst : a.1 = b.1 := le_antisymm h1 h2
        have : a.1 ∉ t1.map Prod.fst := (List.nodup_cons.mp (by simpa using hnd)).1
        exact this (hfst ▸ List.mem_map_of_mem Prod.fst hb1)

/-- Sorting by field name is invariant under permutation of the fields when
no field name repeats. -/
theorem sortFields_eq_of_perm (l1 l2 : List (String × KeySeg)) (hp : l1.Perm l2)
    (hnd : (l1.map Prod.fst).Nodup) : sortFields l1 = sortFields l2 := by
  apply sorted_perm_nodup_eq
  · exact (List.mergeSort_perm l1 fieldLe).trans
      (hp.trans (List.mergeSort_perm l2 fieldLe).symm)
  · exact List.sorted_mergeSort fieldLe_trans fieldLe_total l1
  · exact List.sorted_mergeSort fieldLe_trans fieldLe_total l2
  · exact (((List.mergeSort_perm l1 fieldLe).map Prod.fst).nodup_iff).mpr hnd

/-- Swapping two elements of a list (with arbitrary material before, between
and after them) is a permutation. -/
theorem swap_perm (pre mid post : List (String × KeySeg)) (x y : String × KeySeg) :
    (pre ++ x :: mid ++ y :: post).Perm (pre ++ y :: mid ++ x :: post) := by
  simp only [List.append_assoc, List.cons_append]
  apply List.Perm.append_left
  have h1 : (mid ++ y :: post).Perm (y :: (mid ++ post)) := List.perm_middle
  have h2 : (mid ++ x :: post).Perm (x :: (mid ++ post)) := List.perm_middle
  exact ((h1.cons x).trans (List.Perm.swap y x (mid ++ post))).trans (h2.cons y).symm

/-- Claim C8: key canonicalization is order-independent for associative
structures — `canonicalize` (a pure, deterministic function by construction)
sends structurally equal identifiers that differ only in the insertion order
of record fields (order-dependent for sequences, order-independent for
records) to the same canonical key. -/
theorem canonicalize_respects_structEq (k1 k2 : KeySeg) (h : StructEq k1 k2) :
    canonicalize k1 = canonicalize k2 := by
  induction h with
  | refl k => rfl
  | symm _ ih => exact ih.symm
  | trans _ _ ih1 ih2 => exact ih1.trans ih2
  | seqCong pre post a b _ ih =>
    simp only [canonicalize, canonList_append, canonList, ih]
  | fieldCong pre post n a b _ ih =>
    simp only [canonicalize, canonFields_append, canonFields, ih]
  | fieldSwap pre mid post x y hnd =>
    simp only [canonicalize]
    congr 1
    apply sortFields_eq_of_perm
    · rw [canonFields_eq_map, canonFields_eq_map]
      exact (swap_perm pre mid post x y).map _
    · rw [canonFields_eq_map, List.map_map]
      have hcomp : (Prod.fst ∘ fun f : String × KeySeg => (f.1, canonicalize f.2))
          = Prod.fst := funext fun f => rfl
      rw [hcomp]
      exact hnd

/-- Witness for claim C8: the records `{b: 2, a: 1}` and `{a: 1, b: 2}`,
structurally equal but for field insertion order, canonicalize identically. -/
theorem canonicalize_respects_structEq_witness :
    canonicalize (.record [("b", .num 2), ("a", .num 1)])
      = canonicalize (.record [("a", .num 1), ("b", .num 2)]) :=
  canonicalize_respects_structEq _ _
    (StructEq.fieldSwap [] [] [] ("b", .num 2) ("a", .num 1) (by decide))
